import Mathlib

/-!
Shallow embedding of the LinguaBot conversational-practice app:
the session controller of `App.tsx` and the two remote clients of
`geminiService.ts`.

The session controller is modelled as a state machine on `AppState`.
Each React event handler becomes a pure transition function; the
`await` points split `stopListeningAndSend` and `handleEvaluate` into
a begin step (the synchronous prefix up to the awaited remote call)
and an end step (the continuation run when the call resolves).  The
remote generation service is a black box supplied by the environment
as a function; transport failure is `Except.error ()`.  `Step` wires
the transition functions together with the guards the presentation
layer enforces through `disabled` attributes and button visibility,
and `Reachable` closes the initial state under `Step`.
-/

namespace LinguaBot

/-- `Role` from `types.ts`. -/
inductive Role where
  | user
  | assistant
  deriving DecidableEq

/-- `Message` from `types.ts`; `timestamp` is epoch milliseconds, a `Nat`
supplied by the environment at each append. -/
structure Message where
  role : Role
  content : String
  timestamp : Nat
  deriving DecidableEq

/-- `GrammarCorrection` from `types.ts`. -/
structure GrammarCorrection where
  original : String
  corrected : String
  deriving DecidableEq

/-- `EvaluationResult` from `types.ts`; `band_score` is a JSON number,
modelled as `Rat`. -/
structure EvaluationResult where
  band_score : Rat
  feedback : String
  grammar_corrections : List GrammarCorrection
  tips : List String
  deriving DecidableEq

/-- `SpeechState` from `types.ts`. -/
structure SpeechState where
  isListening : Bool
  transcript : String
  isProcessing : Bool
  error : Option String
  deriving DecidableEq

/-! ### JSON values and the `@google/genai` response schema

The evaluation call declares a `responseSchema` (geminiService.ts lines
58-81) that the remote service enforces on its reply before the client
runs `JSON.parse` and an unchecked cast.  JSON texts are modelled by
their parse trees (`Json`), the schema descriptor by `GSchema`, and the
server-side validation (modelled from the spec: "schema validated
server-side before the client parses it") by `satisfies`. -/

/-- Parse tree of a JSON text. -/
inductive Json where
  | str (s : String)
  | num (q : Rat)
  | bool (b : Bool)
  | null
  | arr (elems : List Json)
  | obj (fields : List (String × Json))

/-- The subset of `@google/genai` schema descriptors the source uses:
`Type.NUMBER`, `Type.STRING`, `Type.ARRAY` with `items`, and
`Type.OBJECT` with `properties` and `required`. -/
inductive GSchema where
  | number
  | string
  | array (items : GSchema)
  | object (properties : List (String × GSchema)) (required : List String)

/-- First field with the given key in a JSON object, as JS property access. -/
def lookupField : List (String × Json) → String → Option Json
  | [], _ => none
  | (k, v) :: rest, key => if k = key then some v else lookupField rest key

/-- Sub-schema declared for a property key. -/
def lookupSchema : List (String × GSchema) → String → Option GSchema
  | [], _ => none
  | (k, s) :: rest, key => if k = key then some s else lookupSchema rest key

mutual

/-- Schema validation, modelled from the spec: the remote service enforces
the declared `responseSchema` on its reply.  A value conforms when its
shape matches the descriptor, every present field whose key is declared
matches the declared sub-schema, and every `required` key is present. -/
def satisfies : GSchema → Json → Bool
  | GSchema.number, Json.num _ => true
  | GSchema.string, Json.str _ => true
  | GSchema.array items, Json.arr elems => allSatisfy items elems
  | GSchema.object props req, Json.obj fields =>
      fieldsSatisfy props fields && req.all (fun k => (lookupField fields k).isSome)
  | _, _ => false
termination_by _ j => sizeOf j

/-- Every element of a JSON array conforms to the item schema. -/
def allSatisfy : GSchema → List Json → Bool
  | _, [] => true
  | s, j :: js => satisfies s j && allSatisfy s js
termination_by _ js => sizeOf js

/-- Every object field whose key is declared conforms to its sub-schema. -/
def fieldsSatisfy : List (String × GSchema) → List (String × Json) → Bool
  | _, [] => true
  | props, (k, v) :: rest =>
      (match lookupSchema props k with
       | some sub => satisfies sub v
       | none => true) && fieldsSatisfy props rest
termination_by _ fields => sizeOf fields

end

/-- The `responseSchema` entry for `grammar_corrections` items
(geminiService.ts lines 66-73). -/
def correctionSchema : GSchema :=
  GSchema.object [("original", GSchema.string), ("corrected", GSchema.string)]
    ["original", "corrected"]

/-- The declared `responseSchema` of `evaluateSpeaking`
(geminiService.ts lines 59-81).  The `tips` entry is an unconstrained
string array: no item count is declared. -/
def evaluationSchema : GSchema :=
  GSchema.object
    [("band_score", GSchema.number),
     ("feedback", GSchema.string),
     ("grammar_corrections", GSchema.array correctionSchema),
     ("tips", GSchema.array GSchema.string)]
    ["band_score", "feedback", "grammar_corrections", "tips"]

/-! ### The clients of `geminiService.ts` -/

/-- One entry of the `contents` request payload: a role string and the
text of its single part (geminiService.ts lines 15-18). -/
structure ApiContent where
  role : String
  text : String
  deriving DecidableEq

/-- Role vocabulary mapping of `getGeminiChatResponse`:
`msg.role === Role.USER ? 'user' : 'model'`. -/
def roleToApi : Role → String
  | Role.user => "user"
  | Role.assistant => "model"

/-- The `contents` array built from the full history, order preserved
(geminiService.ts lines 15-18). -/
def toContents (history : List Message) : List ApiContent :=
  history.map (fun msg => ⟨roleToApi msg.role, msg.content⟩)

/-- The fallback reply of `getGeminiChatResponse` (geminiService.ts
line 31). -/
def fallbackReply : String := "I'm sorry, I couldn't process that."

/-- `getGeminiChatResponse` (geminiService.ts lines 13-36).  `service`
is the black-box remote generation call on the mapped history; its
`Except.ok` value is `response.text` (the empty string also covering an
absent body).  `response.text || fallbackReply` becomes the `if`; any
thrown transport error becomes `Except.error ()`. -/
def getGeminiChatResponse (service : List ApiContent → Except Unit String)
    (history : List Message) : Except Unit String :=
  match service (toContents history) with
  | Except.ok t => Except.ok (if t = "" then fallbackReply else t)
  | Except.error _ => Except.error ()

/-- Reading a JSON value as a string, as the unchecked cast lets the UI do. -/
def asString : Json → Option String
  | Json.str s => some s
  | _ => none

/-- Reading a JSON value as a number. -/
def asNum : Json → Option Rat
  | Json.num q => some q
  | _ => none

/-- Reading a JSON value as an array. -/
def asArr : Json → Option (List Json)
  | Json.arr elems => some elems
  | _ => none

/-- Reading one `grammar_corrections` entry. -/
def asCorrection : Json → Option GrammarCorrection
  | Json.obj fields => do
      let original ← lookupField fields "original" >>= asString
      let corrected ← lookupField fields "corrected" >>= asString
      pure ⟨original, corrected⟩
  | _ => none

/-- `JSON.parse(jsonStr) as EvaluationResult` (geminiService.ts line 86):
the cast is unchecked in TypeScript, so this models the structural
reading of a shape-conformant response; a response of another shape,
where the source would produce an ill-typed object, is `none`. -/
def parseEvaluation : Json → Option EvaluationResult
  | Json.obj fields => do
      let bs ← lookupField fields "band_score" >>= asNum
      let fb ← lookupField fields "feedback" >>= asString
      let gcElems ← lookupField fields "grammar_corrections" >>= asArr
      let gc ← gcElems.mapM asCorrection
      let tipsElems ← lookupField fields "tips" >>= asArr
      let tips ← tipsElems.mapM asString
      pure ⟨bs, fb, gc, tips⟩
  | _ => none

/-- `evaluateSpeaking` (geminiService.ts lines 38-91).  `service` is the
black-box remote call carrying the examiner prompt built from `text` and
`evaluationSchema`; its `Except.ok` value is the parse tree of
`response.text.trim()`.  A thrown transport or parse error becomes
`Except.error ()`. -/
def evaluateSpeaking (service : String → Except Unit Json) (text : String) :
    Except Unit EvaluationResult :=
  match service text with
  | Except.ok j =>
      match parseEvaluation j with
      | some r => Except.ok r
      | none => Except.error ()
  | Except.error _ => Except.error ()

/-! ### User-facing message strings of `App.tsx` -/

/-- The seeded assistant greeting (App.tsx line 35). -/
def greetingText : String :=
  "Hi! I'm LinguaBot. I'm here to help you practice your English. Ready to start talking?"

/-- Error when the Web Speech API is missing (App.tsx line 95). -/
def unsupportedBrowserError : String :=
  "Web Speech API is not supported in this browser. Please use a modern browser like Chrome or Edge."

/-- Error for an empty final transcript (App.tsx line 159). -/
def didntHearError : String :=
  "I didn't hear anything. Try clicking 'Start Talking' again."

/-- Error when the conversation call fails (App.tsx line 184). -/
def connectionError : String :=
  "Failed to connect to LinguaBot service. Please check your connection."

/-- Precondition error of `handleEvaluate` (App.tsx line 194). -/
def notSpokenError : String :=
  "You haven't spoken yet! Say something first."

/-- Error when the evaluation call fails (App.tsx line 207). -/
def evaluateFailedError : String :=
  "Could not evaluate your speaking at this time."

/-- Message selection of the `catch` in `startListening`
(App.tsx lines 134-142), keyed by the thrown error's `name`. -/
def permissionErrorMessage (errName : String) : String :=
  if errName = "NotAllowedError" ∨ errName = "PermissionDeniedError" then
    "Microphone access is blocked. Click the 'lock' or 'camera/mic' icon in your browser's address bar to reset permissions."
  else if errName = "NotFoundError" ∨ errName = "DevicesNotFoundError" then
    "No microphone found. Please connect a microphone and try again."
  else
    "Microphone permission denied. Please allow microphone access in your browser settings to continue."

/-- Message selection of `recognition.onerror` (App.tsx lines 68-87),
keyed by the event's categorical `error` code. -/
def speechErrorMessage (code : String) : String :=
  if code = "not-allowed" then
    "Microphone access is blocked. Please check your browser's site settings and 'Allow' microphone access for this site."
  else if code = "no-speech" then
    "No speech was detected. Please try speaking clearly."
  else if code = "network" then
    "A network error occurred. Please check your internet connection."
  else if code = "audio-capture" then
    "No microphone was found. Please ensure your microphone is plugged in."
  else
    "An error occurred with speech recognition."

/-! ### The session controller state machine (`App.tsx`) -/

/-- The remote call in flight, if any: the awaited conversation turn of
`stopListeningAndSend` carries the submitted history, the awaited
evaluation of `handleEvaluate` carries the submitted utterance. -/
inductive Pending where
  | idle
  | chat (history : List Message)
  | evalCall (utterance : String)
  deriving DecidableEq

/-- The controller state: the `messages`, `speechState`, `evaluation` and
`isEvaluating` React state, whether `recognitionRef.current` was set at
initialization (constant afterwards), and the call in flight. -/
structure AppState where
  messages : List Message
  speechState : SpeechState
  evaluation : Option EvaluationResult
  isEvaluating : Bool
  recognitionAvailable : Bool
  pending : Pending
  deriving DecidableEq

/-- The seeded greeting message (App.tsx lines 32-38); its `Date.now()`
is taken as instant 0. -/
def initialMessage : Message := ⟨Role.assistant, greetingText, 0⟩

/-- Initial state (App.tsx lines 32-46), after the initialization effect
that probes for the Web Speech API (lines 52-97): when it is absent the
unsupported-browser error is set and no recognizer exists. -/
def initialState (recognitionAvailable : Bool) : AppState :=
  { messages := [initialMessage]
    speechState :=
      { isListening := false
        transcript := ""
        isProcessing := false
        error := if recognitionAvailable then none else some unsupportedBrowserError }
    evaluation := none
    isEvaluating := false
    recognitionAvailable := recognitionAvailable
    pending := Pending.idle }

/-- `startListening` when `getUserMedia` resolves (App.tsx lines 122-133):
clear error and transcript first; then, if a recognizer exists, set
`isListening` and start capture. -/
def startListeningOk (s : AppState) : AppState :=
  let s1 := { s with speechState := { s.speechState with error := none, transcript := "" } }
  if s1.recognitionAvailable then
    { s1 with speechState := { s1.speechState with isListening := true } }
  else s1

/-- `startListening` when `getUserMedia` rejects (App.tsx lines 122-149):
clear error and transcript first; then set the permission error chosen by
the thrown error's `name` and force `isListening` false. -/
def startListeningFail (s : AppState) (errName : String) : AppState :=
  let s1 := { s with speechState := { s.speechState with error := none, transcript := "" } }
  { s1 with speechState := { s1.speechState with
      error := some (permissionErrorMessage errName)
      isListening := false } }

/-- Leading- and trailing-whitespace removal over the character list,
modelling `String.prototype.trim` of `speechState.transcript.trim()`
(App.tsx line 157); defined structurally so concrete states compute. -/
def trimString (s : String) : String :=
  String.mk (((s.data.dropWhile Char.isWhitespace).reverse.dropWhile Char.isWhitespace).reverse)

/-- The synchronous prefix of `stopListeningAndSend` (App.tsx lines
152-173), up to the awaited conversation call.  Without a recognizer the
handler body is skipped.  Otherwise capture stops and `isListening`
clears; an empty trimmed transcript only sets the didn't-hear error;
otherwise the trimmed utterance is appended as a USER message, the
transcript clears, `isProcessing` is set, the stale evaluation is
dropped and the conversation call on the new history goes in flight. -/
def stopListeningAndSendBegin (s : AppState) (now : Nat) : AppState :=
  if s.recognitionAvailable then
    let s1 := { s with speechState := { s.speechState with isListening := false } }
    let finalTranscript := trimString s.speechState.transcript
    if finalTranscript = "" then
      { s1 with speechState := { s1.speechState with error := some didntHearError } }
    else
      let userMessage : Message := ⟨Role.user, finalTranscript, now⟩
      let newHistory := s1.messages ++ [userMessage]
      { s1 with
        messages := newHistory
        speechState := { s1.speechState with isProcessing := true, transcript := "" }
        evaluation := none
        pending := Pending.chat newHistory }
  else s

/-- The continuation of `stopListeningAndSend` when the conversation call
resolves (App.tsx lines 174-187): on success append the ASSISTANT reply
(speech synthesis is a fire-and-forget side effect outside the state); on
failure set the connectivity error.  The `finally` clears `isProcessing`
either way. -/
def chatReplyEnd (s : AppState) (outcome : Except Unit String) (now : Nat) : AppState :=
  match outcome with
  | Except.ok aiResponse =>
      { s with
        messages := s.messages ++ [⟨Role.assistant, aiResponse, now⟩]
        speechState := { s.speechState with isProcessing := false }
        pending := Pending.idle }
  | Except.error _ =>
      { s with
        speechState := { s.speechState with error := some connectionError, isProcessing := false }
        pending := Pending.idle }

/-- `[...messages].reverse().find(m => m.role === Role.USER)`
(App.tsx line 192). -/
def findLastUser (messages : List Message) : Option Message :=
  messages.reverse.find? (fun m => decide (m.role = Role.user))

/-- The synchronous prefix of `handleEvaluate` (App.tsx lines 191-199):
with no USER message in history only the precondition error is set;
otherwise `isEvaluating` is set, the error clears, and the evaluation
call on the most recent USER message's content goes in flight. -/
def handleEvaluateBegin (s : AppState) : AppState :=
  match findLastUser s.messages with
  | none =>
      { s with speechState := { s.speechState with error := some notSpokenError } }
  | some lastUserMessage =>
      { s with
        isEvaluating := true
        speechState := { s.speechState with error := none }
        pending := Pending.evalCall lastUserMessage.content }

/-- The continuation of `handleEvaluate` when the evaluation call
resolves (App.tsx lines 200-210): on success store the result; on
failure set the evaluation error.  The `finally` clears `isEvaluating`
either way. -/
def handleEvaluateEnd (s : AppState) (outcome : Except Unit EvaluationResult) : AppState :=
  match outcome with
  | Except.ok result =>
      { s with evaluation := some result, isEvaluating := false, pending := Pending.idle }
  | Except.error _ =>
      { s with
        speechState := { s.speechState with error := some evaluateFailedError }
        isEvaluating := false
        pending := Pending.idle }

/-- The Close Analysis button (App.tsx line 383): `setEvaluation(null)`. -/
def dismissEvaluation (s : AppState) : AppState :=
  { s with evaluation := none }

/-- `recognition.onresult` (App.tsx lines 60-66): the cumulative partial
transcript replaces the current one. -/
def speechResultEvent (s : AppState) (currentTranscript : String) : AppState :=
  { s with speechState := { s.speechState with transcript := currentTranscript } }

/-- `recognition.onerror` (App.tsx lines 68-87). -/
def speechErrorEvent (s : AppState) (code : String) : AppState :=
  { s with speechState := { s.speechState with
      error := some (speechErrorMessage code)
      isListening := false } }

/-- `recognition.onend` (App.tsx lines 89-91). -/
def speechEndEvent (s : AppState) : AppState :=
  { s with speechState := { s.speechState with isListening := false } }

/-- The Start Talking button is rendered when not listening and disabled
while processing or evaluating (App.tsx lines 281-289). -/
def canStartTalking (s : AppState) : Prop :=
  s.speechState.isListening = false ∧ s.speechState.isProcessing = false ∧
  s.isEvaluating = false

/-- The Stop and Send button is rendered exactly while listening
(App.tsx lines 290-298). -/
def canStopAndSend (s : AppState) : Prop :=
  s.speechState.isListening = true

/-- The Performance Report button is disabled while listening, processing
or evaluating, or with fewer than two messages (App.tsx line 302). -/
def canRequestReport (s : AppState) : Prop :=
  s.speechState.isListening = false ∧ s.speechState.isProcessing = false ∧
  s.isEvaluating = false ∧ 2 ≤ s.messages.length

/-- One controller step: a user action permitted by the presentation
layer, the resolution of the call in flight, or a speech-capture
lifecycle event while capture is active. -/
inductive Step : AppState → AppState → Prop where
  | startOk (s : AppState) :
      canStartTalking s → Step s (startListeningOk s)
  | startFail (s : AppState) (errName : String) :
      canStartTalking s → Step s (startListeningFail s errName)
  | stopAndSend (s : AppState) (now : Nat) :
      canStopAndSend s → Step s (stopListeningAndSendBegin s now)
  | chatDone (s : AppState) (service : List ApiContent → Except Unit String)
      (history : List Message) (now : Nat) :
      s.pending = Pending.chat history →
      Step s (chatReplyEnd s (getGeminiChatResponse service history) now)
  | reportBegin (s : AppState) :
      canRequestReport s → Step s (handleEvaluateBegin s)
  | reportDone (s : AppState) (service : String → Except Unit Json) (utterance : String) :
      s.pending = Pending.evalCall utterance →
      Step s (handleEvaluateEnd s (evaluateSpeaking service utterance))
  | dismiss (s : AppState) :
      Step s (dismissEvaluation s)
  | speechResult (s : AppState) (currentTranscript : String) :
      s.speechState.isListening = true → Step s (speechResultEvent s currentTranscript)
  | speechError (s : AppState) (code : String) :
      s.speechState.isListening = true → Step s (speechErrorEvent s code)
  | speechEnd (s : AppState) :
      Step s (speechEndEvent s)

/-- States reachable from an initial state. -/
inductive Reachable : AppState → Prop where
  | init (recognitionAvailable : Bool) : Reachable (initialState recognitionAvailable)
  | step {s t : AppState} : Reachable s → Step s t → Reachable t

/-- Whether the history holds at least one USER message. -/
def hasUserMessage (messages : List Message) : Bool :=
  messages.any (fun m => decide (m.role = Role.user))

/-! ### A concrete execution

One full session used by witnesses and counterexamples: start talking,
speak "hello", stop and send, receive a reply, request a report that
succeeds, then request a second report that fails. -/

/-- A sample evaluation result. -/
def sampleEvaluation : EvaluationResult :=
  ⟨6, "Good fluency.",
   [⟨"I go to school yesterday", "I went to school yesterday"⟩],
   ["a", "b", "c"]⟩

/-- A schema-conformant service response parsing to `sampleEvaluation`. -/
def sampleEvaluationJson : Json :=
  Json.obj
    [("band_score", Json.num 6),
     ("feedback", Json.str "Good fluency."),
     ("grammar_corrections", Json.arr
       [Json.obj [("original", Json.str "I go to school yesterday"),
                  ("corrected", Json.str "I went to school yesterday")]]),
     ("tips", Json.arr [Json.str "a", Json.str "b", Json.str "c"])]

/-- A conversation service that replies "Nice!". -/
def chatServiceNice : List ApiContent → Except Unit String :=
  fun _ => Except.ok "Nice!"

/-- An evaluation service that returns `sampleEvaluationJson`. -/
def evalServiceOk : String → Except Unit Json :=
  fun _ => Except.ok sampleEvaluationJson

/-- An evaluation service whose transport fails. -/
def evalServiceFail : String → Except Unit Json :=
  fun _ => Except.error ()

/-- The initial state with a recognizer present. -/
def exState0 : AppState := initialState true

/-- After a granted start-talking action. -/
def exState1 : AppState := startListeningOk exState0

/-- After the recognizer reports the partial transcript "hello". -/
def exState2 : AppState := speechResultEvent exState1 "hello"

/-- After stop-and-send commits the utterance at instant 1. -/
def exState3 : AppState := stopListeningAndSendBegin exState2 1

/-- The history that the conversation call of `exState3` carries. -/
def exHistory : List Message := exState2.messages ++ [⟨Role.user, "hello", 1⟩]

/-- After the conversation reply lands at instant 2. -/
def exState4 : AppState :=
  chatReplyEnd exState3 (getGeminiChatResponse chatServiceNice exHistory) 2

/-- After a performance-report action begins. -/
def exState5 : AppState := handleEvaluateBegin exState4

/-- After the evaluation call succeeds with `sampleEvaluation`. -/
def exState6 : AppState := handleEvaluateEnd exState5 (evaluateSpeaking evalServiceOk "hello")

/-- After a second performance-report action begins. -/
def exState7 : AppState := handleEvaluateBegin exState6

/-- After the second evaluation call fails. -/
def exState8 : AppState := handleEvaluateEnd exState7 (evaluateSpeaking evalServiceFail "hello")

/-- A schema-conformant evaluation response carrying only two tips. -/
def twoTipsJson : Json :=
  Json.obj
    [("band_score", Json.num 6),
     ("feedback", Json.str "ok"),
     ("grammar_corrections", Json.arr []),
     ("tips", Json.arr [Json.str "a", Json.str "b"])]

/-- A schema-conformant evaluation response carrying three tips. -/
def threeTipsJson : Json :=
  Json.obj
    [("band_score", Json.num 6),
     ("feedback", Json.str "ok"),
     ("grammar_corrections", Json.arr []),
     ("tips", Json.arr [Json.str "t1", Json.str "t2", Json.str "t3"])]

/-! ### Frame lemmas: fields a transition leaves untouched -/

theorem startListeningOk_messages (s : AppState) :
    (startListeningOk s).messages = s.messages := by
  cases hr : s.recognitionAvailable <;> simp [startListeningOk, hr]

theorem startListeningOk_evaluation (s : AppState) :
    (startListeningOk s).evaluation = s.evaluation := by
  cases hr : s.recognitionAvailable <;> simp [startListeningOk, hr]

theorem startListeningOk_pending (s : AppState) :
    (startListeningOk s).pending = s.pending := by
  cases hr : s.recognitionAvailable <;> simp [startListeningOk, hr]

theorem startListeningOk_isProcessing (s : AppState) :
    (startListeningOk s).speechState.isProcessing = s.speechState.isProcessing := by
  cases hr : s.recognitionAvailable <;> simp [startListeningOk, hr]

theorem startListeningFail_messages (s : AppState) (errName : String) :
    (startListeningFail s errName).messages = s.messages := by
  simp [startListeningFail]

theorem startListeningFail_evaluation (s : AppState) (errName : String) :
    (startListeningFail s errName).evaluation = s.evaluation := by
  simp [startListeningFail]

theorem startListeningFail_pending (s : AppState) (errName : String) :
    (startListeningFail s errName).pending = s.pending := by
  simp [startListeningFail]

theorem handleEvaluateBegin_messages (s : AppState) :
    (handleEvaluateBegin s).messages = s.messages := by
  cases hfind : findLastUser s.messages <;> simp [handleEvaluateBegin, hfind]

theorem handleEvaluateBegin_evaluation (s : AppState) :
    (handleEvaluateBegin s).evaluation = s.evaluation := by
  cases hfind : findLastUser s.messages <;> simp [handleEvaluateBegin, hfind]

theorem handleEvaluateBegin_isListening (s : AppState) :
    (handleEvaluateBegin s).speechState.isListening = s.speechState.isListening := by
  cases hfind : findLastUser s.messages <;> simp [handleEvaluateBegin, hfind]

theorem handleEvaluateBegin_isProcessing (s : AppState) :
    (handleEvaluateBegin s).speechState.isProcessing = s.speechState.isProcessing := by
  cases hfind : findLastUser s.messages <;> simp [handleEvaluateBegin, hfind]

/-! ### Helper lemmas on reverse-scan user lookup -/

theorem hasUser_of_findLastUser {messages : List Message} {m : Message}
    (h : findLastUser messages = some m) : hasUserMessage messages = true := by
  simp only [findLastUser] at h
  have hmem : m ∈ messages.reverse := List.mem_of_find?_eq_some h
  have hrole := List.find?_some h
  simp only [hasUserMessage, List.any_eq_true]
  exact ⟨m, List.mem_reverse.mp hmem, hrole⟩

theorem findLastUser_eq_none {messages : List Message}
    (h : hasUserMessage messages = false) : findLastUser messages = none := by
  simp only [hasUserMessage, List.any_eq_false] at h
  simp only [findLastUser, List.find?_eq_none]
  intro m hm
  exact h m (List.mem_reverse.mp hm)

theorem findLastUser_isSome_of_hasUser {messages : List Message}
    (h : hasUserMessage messages = true) : (findLastUser messages).isSome = true := by
  simp only [hasUserMessage, List.any_eq_true] at h
  obtain ⟨m, hm, hrole⟩ := h
  simp only [findLastUser, List.find?_isSome]
  exact ⟨m, List.mem_reverse.mpr hm, hrole⟩

theorem findLastUser_split {messages : List Message} {m : Message}
    (h : findLastUser messages = some m) :
    ∃ before after, messages = before ++ m :: after ∧
      m.role = Role.user ∧ ∀ x ∈ after, x.role ≠ Role.user := by
  simp only [findLastUser] at h
  rw [List.find?_eq_some] at h
  obtain ⟨hrole, as, bs, hsplit, hnone⟩ := h
  refine ⟨bs.reverse, as.reverse, ?_, by simpa using hrole, ?_⟩
  · have := congrArg List.reverse hsplit
    simpa [List.reverse_append] using this
  · intro x hx
    have := hnone x (List.mem_reverse.mp hx)
    simpa using this

theorem hasUserMessage_append_assistant (messages : List Message)
    (content : String) (now : Nat) :
    hasUserMessage (messages ++ [⟨Role.assistant, content, now⟩]) = hasUserMessage messages := by
  simp [hasUserMessage, List.any_append]

/-! ### The mutual-exclusion invariant (C1) -/

theorem step_preserves_exclusive {s t : AppState} (hstep : Step s t)
    (hinv : s.speechState.isListening = false ∨ s.speechState.isProcessing = false) :
    t.speechState.isListening = false ∨ t.speechState.isProcessing = false := by
  cases hstep with
  | startOk hg =>
    right
    rw [startListeningOk_isProcessing]
    exact hg.2.1
  | startFail errName hg =>
    left
    simp [startListeningFail]
  | stopAndSend now hg =>
    cases hr : s.recognitionAvailable with
    | false =>
      simpa [stopListeningAndSendBegin, hr] using hinv
    | true =>
      left
      by_cases ht : trimString s.speechState.transcript = "" <;>
        simp [stopListeningAndSendBegin, hr, ht]
  | chatDone service history now hp =>
    right
    cases houtcome : getGeminiChatResponse service history <;>
      simp [chatReplyEnd]
  | reportBegin hg =>
    rw [handleEvaluateBegin_isListening, handleEvaluateBegin_isProcessing]
    exact hinv
  | reportDone service utterance hp =>
    cases houtcome : evaluateSpeaking service utterance <;>
      simpa [handleEvaluateEnd] using hinv
  | dismiss =>
    simpa [dismissEvaluation] using hinv
  | speechResult currentTranscript hg =>
    simpa [speechResultEvent] using hinv
  | speechError code hg =>
    left
    simp [speechErrorEvent]
  | speechEnd =>
    left
    simp [speechEndEvent]

theorem reachable_exclusive {s : AppState} (h : Reachable s) :
    s.speechState.isListening = false ∨ s.speechState.isProcessing = false := by
  induction h with
  | init recognitionAvailable => simp [initialState]
  | step hr hs ih => exact step_preserves_exclusive hs ih

/-! ### The evaluation invariant (C3) -/

/-- The invariant behind C3: an evaluation result can only be present, and
an evaluation call only in flight, once the history holds a USER message. -/
def evaluationInv (s : AppState) : Prop :=
  (hasUserMessage s.messages = false → s.evaluation = none) ∧
  (∀ u, s.pending = Pending.evalCall u → hasUserMessage s.messages = true)

theorem step_preserves_evaluationInv {s t : AppState} (hstep : Step s t)
    (hinv : evaluationInv s) : evaluationInv t := by
  obtain ⟨hnone, hpend⟩ := hinv
  cases hstep with
  | startOk hg =>
    refine ⟨fun h => ?_, fun u hu => ?_⟩
    · rw [startListeningOk_messages] at h
      rw [startListeningOk_evaluation]
      exact hnone h
    · rw [startListeningOk_messages]
      rw [startListeningOk_pending] at hu
      exact hpend u hu
  | startFail errName hg =>
    refine ⟨fun h => ?_, fun u hu => ?_⟩
    · rw [startListeningFail_messages] at h
      rw [startListeningFail_evaluation]
      exact hnone h
    · rw [startListeningFail_messages]
      rw [startListeningFail_pending] at hu
      exact hpend u hu
  | stopAndSend now hg =>
    cases hr : s.recognitionAvailable with
    | false =>
      simp only [stopListeningAndSendBegin, hr]
      simpa using ⟨hnone, hpend⟩
    | true =>
      by_cases ht : trimString s.speechState.transcript = ""
      · simp only [stopListeningAndSendBegin, hr, ht]
        refine ⟨fun h => ?_, fun u hu => ?_⟩
        · simpa using hnone (by simpa using h)
        · exact hpend u (by simpa using hu)
      · simp only [stopListeningAndSendBegin, hr, ht]
        refine ⟨fun h => ?_, fun u hu => ?_⟩
        · simp
        · simp at hu
  | chatDone service history now hp =>
    cases houtcome : getGeminiChatResponse service history with
    | ok reply =>
      refine ⟨fun h => ?_, fun u hu => ?_⟩
      · simp only [chatReplyEnd] at h ⊢
        rw [hasUserMessage_append_assistant] at h
        exact hnone h
      · simp [chatReplyEnd] at hu
    | error e =>
      refine ⟨fun h => ?_, fun u hu => ?_⟩
      · simp only [chatReplyEnd] at h ⊢
        exact hnone h
      · simp [chatReplyEnd] at hu
  | reportBegin hg =>
    cases hfind : findLastUser s.messages with
    | none =>
      refine ⟨fun h => ?_, fun u hu => ?_⟩
      · simp only [handleEvaluateBegin, hfind] at h ⊢
        exact hnone h
      · simp only [handleEvaluateBegin, hfind] at hu ⊢
        exact hpend u hu
    | some m =>
      refine ⟨fun h => ?_, fun u hu => ?_⟩
      · simp only [handleEvaluateBegin, hfind] at h ⊢
        exact hnone h
      · simp only [handleEvaluateBegin, hfind] at hu ⊢
        exact hasUser_of_findLastUser hfind
  | reportDone service utterance hp =>
    cases houtcome : evaluateSpeaking service utterance with
    | ok result =>
      refine ⟨fun h => ?_, fun u hu => ?_⟩
      · simp only [handleEvaluateEnd] at h ⊢
        exact absurd (hpend utterance hp) (by simp [h])
      · simp [handleEvaluateEnd] at hu
    | error e =>
      refine ⟨fun h => ?_, fun u hu => ?_⟩
      · simp only [handleEvaluateEnd] at h ⊢
        exact hnone h
      · simp [handleEvaluateEnd] at hu
  | dismiss =>
    refine ⟨fun h => ?_, fun u hu => ?_⟩
    · simp [dismissEvaluation]
    · simp only [dismissEvaluation] at hu ⊢
      exact hpend u hu
  | speechResult currentTranscript hg =>
    refine ⟨fun h => ?_, fun u hu => ?_⟩
    · simp only [speechResultEvent] at h ⊢
      exact hnone h
    · simp only [speechResultEvent] at hu ⊢
      exact hpend u hu
  | speechError code hg =>
    refine ⟨fun h => ?_, fun u hu => ?_⟩
    · simp only [speechErrorEvent] at h ⊢
      exact hnone h
    · simp only [speechErrorEvent] at hu ⊢
      exact hpend u hu
  | speechEnd =>
    refine ⟨fun h => ?_, fun u hu => ?_⟩
    · simp only [speechEndEvent] at h ⊢
      exact hnone h
    · simp only [speechEndEvent] at hu ⊢
      exact hpend u hu

theorem reachable_evaluationInv {s : AppState} (h : Reachable s) : evaluationInv s := by
  induction h with
  | init recognitionAvailable =>
    refine ⟨fun h => rfl, fun u hu => ?_⟩
    simp [initialState] at hu
  | step hr hs ih => exact step_preserves_evaluationInv hs ih

/-! ### Reachability of the concrete execution -/

theorem reachable_exState4 : Reachable exState4 :=
  Reachable.step
    (Reachable.step
      (Reachable.step
        (Reachable.step (Reachable.init true) (Step.startOk exState0 ⟨rfl, rfl, rfl⟩))
        (Step.speechResult exState1 "hello" rfl))
      (Step.stopAndSend exState2 1 rfl))
    (Step.chatDone exState3 chatServiceNice exHistory 2 rfl)

theorem reachable_exState6 : Reachable exState6 :=
  Reachable.step
    (Reachable.step reachable_exState4
      (Step.reportBegin exState4 ⟨rfl, rfl, rfl, by decide⟩))
    (Step.reportDone exState5 evalServiceOk "hello" rfl)

theorem reachable_exState8 : Reachable exState8 :=
  Reachable.step
    (Reachable.step reachable_exState6
      (Step.reportBegin exState6 ⟨rfl, rfl, rfl, by decide⟩))
    (Step.reportDone exState7 evalServiceFail "hello" rfl)

/-! ### Remaining helper lemmas -/

theorem parseEvaluation_tips {j : Json} {r : EvaluationResult}
    (h : parseEvaluation j = some r) :
    ∃ fields tipsElems, j = Json.obj fields ∧
      lookupField fields "tips" = some (Json.arr tipsElems) ∧
      tipsElems.mapM asString = some r.tips := by
  cases j with
  | obj fields =>
    simp only [parseEvaluation, Option.bind_eq_bind, Option.pure_def,
      Option.bind_eq_some, Option.some.injEq] at h
    obtain ⟨bs, ⟨bsj, hbsj, hbs⟩, fb, ⟨fbj, hfbj, hfb⟩, gcE, ⟨gcj, hgcj, hgcE⟩,
      gc, hgc, tE, ⟨tj, htj, htE⟩, tp, htp, hr⟩ := h
    cases tj with
    | arr tipsElems =>
      simp only [asArr, Option.some.injEq] at htE
      subst htE
      refine ⟨fields, tipsElems, rfl, htj, ?_⟩
      rw [htp, ← hr]
    | str s2 => simp [asArr] at htE
    | num q => simp [asArr] at htE
    | bool b => simp [asArr] at htE
    | null => simp [asArr] at htE
    | obj f2 => simp [asArr] at htE
  | str s2 => simp [parseEvaluation] at h
  | num q => simp [parseEvaluation] at h
  | bool b => simp [parseEvaluation] at h
  | null => simp [parseEvaluation] at h
  | arr elems => simp [parseEvaluation] at h

/-! ### The claims -/

/-- C1: in every reachable state of the session controller, under every
sequence of actions (start-talking and stop-and-send included),
`SpeechState.isListening` and `SpeechState.isProcessing` are never
simultaneously true. -/
theorem C1_listening_processing_mutually_exclusive (s : AppState) (h : Reachable s) :
    ¬(s.speechState.isListening = true ∧ s.speechState.isProcessing = true) := by
  rcases reachable_exclusive h with h1 | h1 <;> simp [h1]

/-- Witness for C1 at the reachable state `exState1`, where capture is
active. -/
theorem C1_listening_processing_mutually_exclusive_witness :
    ¬(exState1.speechState.isListening = true ∧
      exState1.speechState.isProcessing = true) :=
  C1_listening_processing_mutually_exclusive exState1
    (Reachable.step (Reachable.init true) (Step.startOk exState0 ⟨rfl, rfl, rfl⟩))

/-- C2: a stop-and-send action whose trimmed transcript is non-empty,
followed by a successful conversation reply, grows `messages` by exactly
two entries in order (the USER message, then the ASSISTANT reply) and
resets the transcript to the empty string. -/
theorem C2_successful_turn_appends_user_then_assistant (s : AppState)
    (now now2 : Nat) (reply : String)
    (hrec : s.recognitionAvailable = true)
    (hne : trimString s.speechState.transcript ≠ "") :
    (chatReplyEnd (stopListeningAndSendBegin s now) (Except.ok reply) now2).messages =
      s.messages ++ [⟨Role.user, trimString s.speechState.transcript, now⟩,
        ⟨Role.assistant, reply, now2⟩] ∧
    (chatReplyEnd (stopListeningAndSendBegin s now)
        (Except.ok reply) now2).speechState.transcript = "" := by
  simp [stopListeningAndSendBegin, chatReplyEnd, hrec, hne]

/-- Witness for C2 at `exState2`, whose transcript is "hello". -/
theorem C2_successful_turn_appends_user_then_assistant_witness :
    (chatReplyEnd (stopListeningAndSendBegin exState2 1) (Except.ok "Nice!") 2).messages =
      exState2.messages ++ [⟨Role.user, trimString exState2.speechState.transcript, 1⟩,
        ⟨Role.assistant, "Nice!", 2⟩] ∧
    (chatReplyEnd (stopListeningAndSendBegin exState2 1)
        (Except.ok "Nice!") 2).speechState.transcript = "" :=
  C2_successful_turn_appends_user_then_assistant exState2 1 2 "Nice!" rfl (by decide)

/-- C3: from any reachable state, a performance-report action with no USER
message in history leaves the stored evaluation `none`, sets the
precondition error and puts no call in flight; with at least one USER
message the reverse scan finds a message, and the evaluation call carries
the content of that message, which is the most recent USER message (no
message after it is a USER message). -/
theorem C3_report_precondition_and_recent_user_selection (s : AppState)
    (h : Reachable s) :
    (hasUserMessage s.messages = false →
      (handleEvaluateBegin s).evaluation = none ∧
      (handleEvaluateBegin s).speechState.error = some notSpokenError ∧
      (handleEvaluateBegin s).pending = s.pending) ∧
    (hasUserMessage s.messages = true → (findLastUser s.messages).isSome = true) ∧
    (∀ m, findLastUser s.messages = some m →
      (handleEvaluateBegin s).pending = Pending.evalCall m.content ∧
      ∃ before after, s.messages = before ++ m :: after ∧
        m.role = Role.user ∧ ∀ x ∈ after, x.role ≠ Role.user) := by
  refine ⟨fun hno => ?_, findLastUser_isSome_of_hasUser, fun m hm => ?_⟩
  · have hfind := findLastUser_eq_none hno
    refine ⟨?_, ?_, ?_⟩
    · rw [handleEvaluateBegin_evaluation]
      exact (reachable_evaluationInv h).1 hno
    · simp [handleEvaluateBegin, hfind]
    · simp [handleEvaluateBegin, hfind]
  · exact ⟨by simp [handleEvaluateBegin, hm], findLastUser_split hm⟩

/-- Witness for C3: the initial state has no USER message and gets the
precondition error; `exState4` has one and the call carries "hello". -/
theorem C3_report_precondition_and_recent_user_selection_witness :
    ((handleEvaluateBegin (initialState true)).evaluation = none ∧
     (handleEvaluateBegin (initialState true)).speechState.error = some notSpokenError ∧
     (handleEvaluateBegin (initialState true)).pending = (initialState true).pending) ∧
    (handleEvaluateBegin exState4).pending = Pending.evalCall "hello" :=
  ⟨(C3_report_precondition_and_recent_user_selection (initialState true)
      (Reachable.init true)).1 (by decide),
   ((C3_report_precondition_and_recent_user_selection exState4
      reachable_exState4).2.2 ⟨Role.user, "hello", 1⟩ rfl).1⟩

/-- C4 counterexample: `exState6` is reachable, stores an evaluation
result, and permits a start-talking action, yet `startListening` leaves
the result stored instead of clearing it. -/
theorem C4_counterexample_start_retains_evaluation :
    Reachable exState6 ∧
    exState6.evaluation = some sampleEvaluation ∧
    (exState6.speechState.isListening = false ∧
     exState6.speechState.isProcessing = false ∧ exState6.isEvaluating = false) ∧
    (startListeningOk exState6).evaluation = some sampleEvaluation ∧
    (startListeningOk exState6).evaluation ≠ none :=
  ⟨reachable_exState6, rfl, ⟨rfl, rfl, rfl⟩, rfl, by decide⟩

/-- C4 amended: a start-talking action (either permission outcome) leaves
the stored evaluation result unchanged; the result is cleared when the
next stop-and-send commits a non-empty utterance. -/
theorem C4_amended_start_preserves_evaluation (s : AppState) (errName : String)
    (now : Nat) (hrec : s.recognitionAvailable = true)
    (hne : trimString s.speechState.transcript ≠ "") :
    (startListeningOk s).evaluation = s.evaluation ∧
    (startListeningFail s errName).evaluation = s.evaluation ∧
    (stopListeningAndSendBegin s now).evaluation = none := by
  refine ⟨startListeningOk_evaluation s, startListeningFail_evaluation s errName, ?_⟩
  simp [stopListeningAndSendBegin, hrec, hne]

/-- Witness for the amended C4 at `exState2`. -/
theorem C4_amended_start_preserves_evaluation_witness :
    (startListeningOk exState2).evaluation = exState2.evaluation ∧
    (startListeningFail exState2 "NotAllowedError").evaluation = exState2.evaluation ∧
    (stopListeningAndSendBegin exState2 1).evaluation = none :=
  C4_amended_start_preserves_evaluation exState2 "NotAllowedError" 1 rfl (by decide)

/-- C5 counterexample: at the reachable state `exState7` an evaluation
call is in flight while `sampleEvaluation` is stored; the call fails, and
the stored result is kept rather than cleared to `none`. -/
theorem C5_counterexample_failure_keeps_stored_result :
    Reachable exState8 ∧
    exState7.pending = Pending.evalCall "hello" ∧
    exState7.evaluation = some sampleEvaluation ∧
    evaluateSpeaking evalServiceFail "hello" = Except.error () ∧
    exState8 = handleEvaluateEnd exState7 (evaluateSpeaking evalServiceFail "hello") ∧
    exState8.evaluation = some sampleEvaluation ∧
    exState8.evaluation ≠ none :=
  ⟨reachable_exState8, rfl, rfl, rfl, rfl, rfl, by decide⟩

/-- C5 amended: when the evaluation call resolves, success stores the
returned result as the current evaluation; failure leaves the stored
result unchanged and sets the evaluation error instead. -/
theorem C5_amended_store_on_success_keep_on_failure (s : AppState)
    (r : EvaluationResult) :
    (handleEvaluateEnd s (Except.ok r)).evaluation = some r ∧
    (handleEvaluateEnd s (Except.error ())).evaluation = s.evaluation ∧
    (handleEvaluateEnd s (Except.error ())).speechState.error =
      some evaluateFailedError :=
  ⟨rfl, rfl, rfl⟩

/-- C6 counterexample: `twoTipsJson` conforms to the declared response
schema, and a successful `evaluateSpeaking` call receiving it returns a
result whose `tips` lists two strings, not three. -/
theorem C6_counterexample_two_tips_accepted :
    satisfies evaluationSchema twoTipsJson = true ∧
    evaluateSpeaking (fun _ => Except.ok twoTipsJson) "I go to school yesterday" =
      Except.ok ⟨6, "ok", [], ["a", "b"]⟩ ∧
    (EvaluationResult.mk 6 "ok" [] ["a", "b"]).tips.length = 2 ∧
    ¬(EvaluationResult.mk 6 "ok" [] ["a", "b"]).tips.length = 3 := by
  refine ⟨?_, rfl, rfl, by decide⟩
  simp [satisfies, allSatisfy, fieldsSatisfy, lookupSchema, lookupField,
    twoTipsJson, evaluationSchema, correctionSchema]

/-- C6 amended: the `tips` of every successfully returned
`EvaluationResult` are exactly the tip strings of the service's JSON
response, in order; the declared schema requires `tips` to be a string
array but does not constrain its length, so the count is whatever the
service returned (the prompt merely requests three). -/
theorem C6_amended_tips_follow_response (service : String → Except Unit Json)
    (text : String) (r : EvaluationResult)
    (h : evaluateSpeaking service text = Except.ok r) :
    ∃ j fields tipsElems, service text = Except.ok j ∧ j = Json.obj fields ∧
      lookupField fields "tips" = some (Json.arr tipsElems) ∧
      tipsElems.mapM asString = some r.tips := by
  cases hsvc : service text with
  | error e => simp [evaluateSpeaking, hsvc] at h
  | ok j =>
    cases hparse : parseEvaluation j with
    | none => simp [evaluateSpeaking, hsvc, hparse] at h
    | some r2 =>
      simp only [evaluateSpeaking, hsvc, hparse, Except.ok.injEq] at h
      subst h
      obtain ⟨fields, tipsElems, hj, htips, hmap⟩ := parseEvaluation_tips hparse
      exact ⟨j, fields, tipsElems, rfl, hj, htips, hmap⟩

/-- Witness for the amended C6 on a three-tip response. -/
theorem C6_amended_tips_follow_response_witness :
    ∃ j fields tipsElems,
      (fun _ : String => (Except.ok threeTipsJson : Except Unit Json)) "hi" =
        Except.ok j ∧
      j = Json.obj fields ∧
      lookupField fields "tips" = some (Json.arr tipsElems) ∧
      tipsElems.mapM asString =
        some (EvaluationResult.mk 6 "ok" [] ["t1", "t2", "t3"]).tips :=
  C6_amended_tips_follow_response (fun _ => Except.ok threeTipsJson) "hi"
    (EvaluationResult.mk 6 "ok" [] ["t1", "t2", "t3"]) rfl

/-- C7: a stop-and-send action whose trimmed transcript is empty leaves
`messages` unchanged, sets the didn't-hear error, and puts no
conversation call in flight. -/
theorem C7_empty_transcript_no_send (s : AppState) (now : Nat)
    (hrec : s.recognitionAvailable = true)
    (hemp : trimString s.speechState.transcript = "") :
    (stopListeningAndSendBegin s now).messages = s.messages ∧
    (stopListeningAndSendBegin s now).speechState.error = some didntHearError ∧
    (stopListeningAndSendBegin s now).pending = s.pending := by
  simp [stopListeningAndSendBegin, hrec, hemp]

/-- Witness for C7 at a listening state whose transcript is whitespace. -/
theorem C7_empty_transcript_no_send_witness :
    (stopListeningAndSendBegin (speechResultEvent exState1 "  ") 1).messages =
      (speechResultEvent exState1 "  ").messages ∧
    (stopListeningAndSendBegin (speechResultEvent exState1 "  ") 1).speechState.error =
      some didntHearError ∧
    (stopListeningAndSendBegin (speechResultEvent exState1 "  ") 1).pending =
      (speechResultEvent exState1 "  ").pending :=
  C7_empty_transcript_no_send (speechResultEvent exState1 "  ") 1 rfl (by decide)

/-- C8: when the remote service answers, `getGeminiChatResponse` returns
the reply text if it is non-empty and the fixed fallback placeholder if
the body is empty; it never returns the empty string on success. -/
theorem C8_reply_or_fallback_never_empty
    (service : List ApiContent → Except Unit String)
    (history : List Message) (t : String)
    (hok : service (toContents history) = Except.ok t) :
    (t ≠ "" → getGeminiChatResponse service history = Except.ok t) ∧
    (t = "" → getGeminiChatResponse service history = Except.ok fallbackReply) ∧
    getGeminiChatResponse service history ≠ Except.ok "" := by
  refine ⟨fun hne => ?_, fun he => ?_, ?_⟩
  · simp [getGeminiChatResponse, hok, hne]
  · simp [getGeminiChatResponse, hok, he]
  · by_cases he : t = "" <;> simp [getGeminiChatResponse, hok, he, fallbackReply]

/-- Witness for C8 with a service replying "Hello". -/
theorem C8_reply_or_fallback_never_empty_witness :
    ("Hello" ≠ "" →
      getGeminiChatResponse (fun _ => Except.ok "Hello") [] = Except.ok "Hello") ∧
    ("Hello" = "" →
      getGeminiChatResponse (fun _ => Except.ok "Hello") [] = Except.ok fallbackReply) ∧
    getGeminiChatResponse (fun _ => Except.ok "Hello") [] ≠ Except.ok "" :=
  C8_reply_or_fallback_never_empty (fun _ => Except.ok "Hello") [] "Hello" rfl

/-- C9: when the committed stop-and-send's conversation call fails, the
appended USER message stays (messages grow by exactly one, no rollback),
the connectivity error is set and `isProcessing` is reset to false. -/
theorem C9_failed_turn_keeps_user_message (s : AppState) (now now2 : Nat)
    (hrec : s.recognitionAvailable = true)
    (hne : trimString s.speechState.transcript ≠ "") :
    (chatReplyEnd (stopListeningAndSendBegin s now) (Except.error ()) now2).messages =
      s.messages ++ [⟨Role.user, trimString s.speechState.transcript, now⟩] ∧
    (chatReplyEnd (stopListeningAndSendBegin s now)
        (Except.error ()) now2).speechState.error = some connectionError ∧
    (chatReplyEnd (stopListeningAndSendBegin s now)
        (Except.error ()) now2).speechState.isProcessing = false := by
  simp [stopListeningAndSendBegin, chatReplyEnd, hrec, hne]

/-- Witness for C9 at `exState2`. -/
theorem C9_failed_turn_keeps_user_message_witness :
    (chatReplyEnd (stopListeningAndSendBegin exState2 1) (Except.error ()) 2).messages =
      exState2.messages ++ [⟨Role.user, trimString exState2.speechState.transcript, 1⟩] ∧
    (chatReplyEnd (stopListeningAndSendBegin exState2 1)
        (Except.error ()) 2).speechState.error = some connectionError ∧
    (chatReplyEnd (stopListeningAndSendBegin exState2 1)
        (Except.error ()) 2).speechState.isProcessing = false :=
  C9_failed_turn_keeps_user_message exState2 1 2 rfl (by decide)

/-- C10: the USER message a committed stop-and-send appends carries the
transcript with leading and trailing whitespace removed. -/
theorem C10_user_message_content_is_trimmed (s : AppState) (now : Nat)
    (hrec : s.recognitionAvailable = true)
    (hne : trimString s.speechState.transcript ≠ "") :
    (stopListeningAndSendBegin s now).messages =
      s.messages ++ [⟨Role.user, trimString s.speechState.transcript, now⟩] := by
  simp [stopListeningAndSendBegin, hrec, hne]

/-- Witness for C10 at a state whose transcript is " hello " with spaces. -/
theorem C10_user_message_content_is_trimmed_witness :
    (stopListeningAndSendBegin (speechResultEvent exState1 " hello ") 3).messages =
      (speechResultEvent exState1 " hello ").messages ++
        [⟨Role.user, trimString (speechResultEvent exState1 " hello ").speechState.transcript, 3⟩] :=
  C10_user_message_content_is_trimmed (speechResultEvent exState1 " hello ") 3 rfl (by decide)

end LinguaBot
